import Mathlib

/-
  Shallow embedding of the risk-estimation core of the chess-risk-analyzer
  repository (src/src/position_features.py, src/src/stockfish_analyzer.py,
  src/src/risk_calculator.py, src/src/game_analyzer.py), together with the
  chess-board semantics of the python-chess operations those modules call
  (legal-move generation, push/pop, attackers, checks, captures).

  External effects are made explicit:
  - the engine process (chess.engine analyse calls) is an oracle parameter
    whose calls may fail (Except Unit);
  - numpy floating-point square root and the softmax/np.random.choice draw
    in sample_plausible_moves are abstracted as oracle fields, since float
    exponentials and process randomness have no deterministic embedding;
  - python floats are modelled by ℚ (the arithmetic the claims concern is
    exact at the modelled inputs);
  - strings (FEN, SAN, UCI) are modelled by the underlying values they
    injectively encode: a FEN by the Board snapshot, a UCI best-move string
    by an Option Move (empty string = none).
-/

namespace ChessRisk

/-- Piece kinds of standard chess. -/
inductive PieceKind
  | pawn
  | knight
  | bishop
  | rook
  | queen
  | king
deriving DecidableEq

/-- A piece: colour (true = white) and kind. -/
structure Piece where
  color : Bool
  kind : PieceKind
deriving DecidableEq

/-- A move in coordinate (UCI) form: source square, destination square,
optional promotion piece.  Squares are 0..63, a1 = 0, h1 = 7, a8 = 56. -/
structure Move where
  src : Nat
  dst : Nat
  promo : Option PieceKind
deriving DecidableEq

/-- A chess position, as python-chess `Board` state relevant to the core:
piece placement, side to move (true = white), castling rights, en-passant
target square, halfmove clock and fullmove number. -/
structure Board where
  squares : List (Option Piece)
  turn : Bool
  castleWK : Bool
  castleWQ : Bool
  castleBK : Bool
  castleBQ : Bool
  ep : Option Nat
  halfmove : Nat
  fullmove : Nat
deriving DecidableEq

/-- Piece on a square (python-chess `board.piece_at`). -/
def pieceAt (b : Board) (sq : Nat) : Option Piece :=
  (b.squares.getD sq none)

/-- File (column) of a square. -/
def fileOf (sq : Nat) : Nat := sq % 8

/-- Rank (row) of a square. -/
def rankOf (sq : Nat) : Nat := sq / 8

/-- Square from integer file/rank coordinates, none when off the board. -/
def sqAt (f r : Int) : Option Nat :=
  if 0 ≤ f ∧ f ≤ 7 ∧ 0 ≤ r ∧ r ≤ 7 then some ((r * 8 + f).toNat) else none

/-- Knight move offsets. -/
def knightOffsets : List (Int × Int) :=
  [(1, 2), (2, 1), (2, -1), (1, -2), (-1, -2), (-2, -1), (-2, 1), (-1, 2)]

/-- King move offsets. -/
def kingOffsets : List (Int × Int) :=
  [(1, 0), (1, 1), (0, 1), (-1, 1), (-1, 0), (-1, -1), (0, -1), (1, -1)]

/-- Diagonal ray directions. -/
def diagDirs : List (Int × Int) := [(1, 1), (1, -1), (-1, 1), (-1, -1)]

/-- Orthogonal ray directions. -/
def orthoDirs : List (Int × Int) := [(1, 0), (-1, 0), (0, 1), (0, -1)]

/-- First piece met walking from (f, r) in direction (df, dr). -/
def firstAlong (b : Board) (df dr : Int) : Nat → Int → Int → Option Piece
  | 0, _, _ => none
  | fuel + 1, f, r =>
    match sqAt (f + df) (r + dr) with
    | none => none
    | some s =>
      match pieceAt b s with
      | some p => some p
      | none => firstAlong b df dr fuel (f + df) (r + dr)

/-- Number of pieces of colour `c` attacking square `sq`
(python-chess `len(board.attackers(c, sq))`): pawn, knight and king attack
patterns plus the nearest piece on each sliding ray when it is a matching
slider. -/
def attackersCount (b : Board) (c : Bool) (sq : Nat) : Nat :=
  let f : Int := fileOf sq
  let r : Int := rankOf sq
  let probe : Int → Int → PieceKind → Nat := fun df dr k =>
    match sqAt (f + df) (r + dr) with
    | none => 0
    | some s =>
      match pieceAt b s with
      | some p => if p.color = c ∧ p.kind = k then 1 else 0
      | none => 0
  let pawnAtt :=
    if c then probe (-1) (-1) .pawn + probe 1 (-1) .pawn
    else probe (-1) 1 .pawn + probe 1 1 .pawn
  let knightAtt := (knightOffsets.map (fun d => probe d.1 d.2 .knight)).sum
  let kingAtt := (kingOffsets.map (fun d => probe d.1 d.2 .king)).sum
  let ray : Int × Int → PieceKind → Nat := fun d k =>
    match firstAlong b d.1 d.2 8 f r with
    | some p => if p.color = c ∧ (p.kind = k ∨ p.kind = .queen) then 1 else 0
    | none => 0
  let diagAtt := (diagDirs.map (fun d => ray d .bishop)).sum
  let orthoAtt := (orthoDirs.map (fun d => ray d .rook)).sum
  pawnAtt + knightAtt + kingAtt + diagAtt + orthoAtt

/-- Whether any piece of colour `c` attacks `sq`. -/
def isAttacked (b : Board) (c : Bool) (sq : Nat) : Bool :=
  attackersCount b c sq != 0

/-- Square of the king of colour `c`, if present. -/
def kingSquare (b : Board) (c : Bool) : Option Nat :=
  (List.range 64).find? (fun s => pieceAt b s == some ⟨c, .king⟩)

/-- Destinations reachable by sliding from (f, r) in direction (df, dr):
empty squares up to and including the first enemy-occupied square. -/
def slideDsts (b : Board) (me : Bool) (df dr : Int) : Nat → Int → Int → List Nat
  | 0, _, _ => []
  | fuel + 1, f, r =>
    match sqAt (f + df) (r + dr) with
    | none => []
    | some s =>
      match pieceAt b s with
      | none => s :: slideDsts b me df dr fuel (f + df) (r + dr)
      | some p => if p.color = me then [] else [s]

/-- Destinations one offset step away that are on the board and not occupied
by an own piece. -/
def stepDsts (b : Board) (me : Bool) (f r : Int) (offs : List (Int × Int)) : List Nat :=
  offs.filterMap (fun d =>
    match sqAt (f + d.1) (r + d.2) with
    | none => none
    | some s =>
      match pieceAt b s with
      | some p => if p.color = me then none else some s
      | none => some s)

/-- Pawn destination squares: single push, double push from the start rank,
and diagonal captures (including onto the en-passant square). -/
def pawnDsts (b : Board) (me : Bool) (src : Nat) : List Nat :=
  let f : Int := fileOf src
  let r : Int := rankOf src
  let dr : Int := if me then 1 else -1
  let startR : Int := if me then 1 else 6
  let push1 :=
    match sqAt f (r + dr) with
    | some s => if pieceAt b s = none then [s] else []
    | none => []
  let push2 :=
    match sqAt f (r + dr), sqAt f (r + 2 * dr) with
    | some s1, some s2 =>
      if r = startR ∧ pieceAt b s1 = none ∧ pieceAt b s2 = none then [s2] else []
    | _, _ => []
  let cap : Int → List Nat := fun df =>
    match sqAt (f + df) (r + dr) with
    | some s =>
      match pieceAt b s with
      | some p => if p.color = me then [] else [s]
      | none => if b.ep = some s then [s] else []
    | none => []
  push1 ++ push2 ++ cap (-1) ++ cap 1

/-- Moves of the piece `p` standing on `src` (castling handled separately).
A pawn reaching the last rank yields the four promotion moves. -/
def movesFrom (b : Board) (src : Nat) (p : Piece) : List Move :=
  let f : Int := fileOf src
  let r : Int := rankOf src
  match p.kind with
  | .pawn =>
    (pawnDsts b p.color src).flatMap (fun d =>
      if rankOf d = (if p.color then 7 else 0) then
        [⟨src, d, some .queen⟩, ⟨src, d, some .rook⟩,
         ⟨src, d, some .bishop⟩, ⟨src, d, some .knight⟩]
      else [⟨src, d, none⟩])
  | .knight => (stepDsts b p.color f r knightOffsets).map (fun d => ⟨src, d, none⟩)
  | .king => (stepDsts b p.color f r kingOffsets).map (fun d => ⟨src, d, none⟩)
  | .bishop =>
    (diagDirs.flatMap (fun d => slideDsts b p.color d.1 d.2 8 f r)).map (fun d => ⟨src, d, none⟩)
  | .rook =>
    (orthoDirs.flatMap (fun d => slideDsts b p.color d.1 d.2 8 f r)).map (fun d => ⟨src, d, none⟩)
  | .queen =>
    ((diagDirs ++ orthoDirs).flatMap (fun d => slideDsts b p.color d.1 d.2 8 f r)).map
      (fun d => ⟨src, d, none⟩)

/-- Castling moves available to the side to move: rights held, squares
between king and rook empty, king not passing through or out of check
(as in python-chess legal-move generation). -/
def castleMoves (b : Board) : List Move :=
  if b.turn then
    (if b.castleWK ∧ pieceAt b 4 = some ⟨true, .king⟩ ∧ pieceAt b 7 = some ⟨true, .rook⟩
        ∧ pieceAt b 5 = none ∧ pieceAt b 6 = none
        ∧ isAttacked b false 4 = false ∧ isAttacked b false 5 = false
        ∧ isAttacked b false 6 = false
     then [⟨4, 6, none⟩] else [])
    ++
    (if b.castleWQ ∧ pieceAt b 4 = some ⟨true, .king⟩ ∧ pieceAt b 0 = some ⟨true, .rook⟩
        ∧ pieceAt b 1 = none ∧ pieceAt b 2 = none ∧ pieceAt b 3 = none
        ∧ isAttacked b false 4 = false ∧ isAttacked b false 3 = false
        ∧ isAttacked b false 2 = false
     then [⟨4, 2, none⟩] else [])
  else
    (if b.castleBK ∧ pieceAt b 60 = some ⟨false, .king⟩ ∧ pieceAt b 63 = some ⟨false, .rook⟩
        ∧ pieceAt b 61 = none ∧ pieceAt b 62 = none
        ∧ isAttacked b true 60 = false ∧ isAttacked b true 61 = false
        ∧ isAttacked b true 62 = false
     then [⟨60, 62, none⟩] else [])
    ++
    (if b.castleBQ ∧ pieceAt b 60 = some ⟨false, .king⟩ ∧ pieceAt b 56 = some ⟨false, .rook⟩
        ∧ pieceAt b 57 = none ∧ pieceAt b 58 = none ∧ pieceAt b 59 = none
        ∧ isAttacked b true 60 = false ∧ isAttacked b true 59 = false
        ∧ isAttacked b true 58 = false
     then [⟨60, 58, none⟩] else [])

/-- All pseudo-legal moves of the side to move. -/
def pseudoMoves (b : Board) : List Move :=
  ((List.range 64).flatMap (fun src =>
    match pieceAt b src with
    | some p => if p.color = b.turn then movesFrom b src p else []
    | none => [])) ++ castleMoves b

/-- Applying a move to the board: python-chess `board.push(move)` —
piece movement, captures (including en passant), promotion, the rook leg of
castling, castling-right updates, en-passant square on double pawn pushes,
halfmove clock, fullmove number and side to move.  (For a move from an
empty square, where python-chess push asserts, only the side to move flips;
no claim evaluates that branch.) -/
def pushMove (b : Board) (m : Move) : Board :=
  match pieceAt b m.src with
  | none => { b with turn := !b.turn }
  | some p =>
    let isEpCap : Prop :=
      p.kind = .pawn ∧ b.ep = some m.dst ∧ pieceAt b m.dst = none
        ∧ fileOf m.dst ≠ fileOf m.src
    let isCap : Prop := (pieceAt b m.dst).isSome ∨ isEpCap
    let sqs1 :=
      if isEpCap then
        b.squares.set (if p.color then m.dst - 8 else m.dst + 8) none
      else b.squares
    let moved : Piece :=
      match m.promo with
      | some k => ⟨p.color, k⟩
      | none => p
    let sqs2 := (sqs1.set m.src none).set m.dst (some moved)
    let sqs3 :=
      if p.kind = .king ∧ m.src = 4 ∧ m.dst = 6 then
        (sqs2.set 7 none).set 5 (some ⟨true, .rook⟩)
      else if p.kind = .king ∧ m.src = 4 ∧ m.dst = 2 then
        (sqs2.set 0 none).set 3 (some ⟨true, .rook⟩)
      else if p.kind = .king ∧ m.src = 60 ∧ m.dst = 62 then
        (sqs2.set 63 none).set 61 (some ⟨false, .rook⟩)
      else if p.kind = .king ∧ m.src = 60 ∧ m.dst = 58 then
        (sqs2.set 56 none).set 59 (some ⟨false, .rook⟩)
      else sqs2
    { squares := sqs3
      turn := !b.turn
      castleWK := b.castleWK ∧ ¬(m.src = 7 ∨ m.dst = 7 ∨ (p.kind = .king ∧ p.color = true))
      castleWQ := b.castleWQ ∧ ¬(m.src = 0 ∨ m.dst = 0 ∨ (p.kind = .king ∧ p.color = true))
      castleBK := b.castleBK ∧ ¬(m.src = 63 ∨ m.dst = 63 ∨ (p.kind = .king ∧ p.color = false))
      castleBQ := b.castleBQ ∧ ¬(m.src = 56 ∨ m.dst = 56 ∨ (p.kind = .king ∧ p.color = false))
      ep :=
        if p.kind = .pawn ∧ (m.dst = m.src + 16 ∨ m.src = m.dst + 16) then
          some ((m.src + m.dst) / 2)
        else none
      halfmove := if p.kind = .pawn ∨ isCap then 0 else b.halfmove + 1
      fullmove := if b.turn then b.fullmove else b.fullmove + 1 }

/-- Legal moves of the side to move (python-chess `board.legal_moves`):
pseudo-legal moves that do not leave the mover's own king attacked; with no
own king on the board every pseudo-legal move is legal, as in python-chess. -/
def legalMoves (b : Board) : List Move :=
  (pseudoMoves b).filter (fun m =>
    let b2 := pushMove b m
    match kingSquare b2 b.turn with
    | some k => !(isAttacked b2 (!b.turn) k)
    | none => true)

/-- Whether `m` is legal in `b` (python-chess `board.is_legal(move)`).
Note that `board.san(move)` and `board.push(move)` do NOT test this: they
only assert that the from-square holds a piece (see sanRaises below). -/
def isLegal (b : Board) (m : Move) : Bool :=
  (legalMoves b).contains m

/-- Side to move in check (python-chess `board.is_check()`). -/
def inCheck (b : Board) : Bool :=
  match kingSquare b b.turn with
  | some k => isAttacked b (!b.turn) k
  | none => false

/-- Whether the move gives check: after pushing it, the new side to move is
in check (python-chess `board.gives_check(move)`). -/
def givesCheck (b : Board) (m : Move) : Bool :=
  inCheck (pushMove b m)

/-- Whether the move is a capture (python-chess `board.is_capture(move)`):
destination occupied by an enemy piece, or an en-passant capture. -/
def isCaptureMove (b : Board) (m : Move) : Bool :=
  (match pieceAt b m.dst with
   | some p => p.color != b.turn
   | none => false)
  ||
  (match pieceAt b m.src with
   | some p =>
     decide (p.kind = .pawn ∧ b.ep = some m.dst ∧ fileOf m.dst ≠ fileOf m.src)
   | none => false)

/-- Pushing a null move (python-chess `board.push(chess.Move.null())`):
flips the side to move, clears the en-passant square, advances the clocks.
python-chess push performs no legality check, so this never fails — also
when the side to move is in check. -/
def pushNull (b : Board) : Board :=
  { b with
    turn := !b.turn
    ep := none
    halfmove := b.halfmove + 1
    fullmove := if b.turn then b.fullmove else b.fullmove + 1 }

/-- Checkmate: in check with no legal move. -/
def isCheckmate (b : Board) : Bool :=
  inCheck b && (legalMoves b).isEmpty

/-- python-chess `board.has_insufficient_material(color)`: a pawn, rook or
queen of the colour suffices to mate; a knight suffices unless the colour
has at most two pieces and the opponent has nothing besides kings and
queens; a bishop suffices unless every bishop on the board stands on the
same square colour and no pawn or knight is on the board; a bare king is
insufficient. -/
def hasInsufficientMaterial (b : Board) (c : Bool) : Bool :=
  let mine : PieceKind → Nat := fun k =>
    (List.range 64).countP (fun s => pieceAt b s == some ⟨c, k⟩)
  let myPieces :=
    (List.range 64).countP (fun s =>
      match pieceAt b s with
      | some p => p.color == c
      | none => false)
  let theirsBesidesKingsQueens :=
    (List.range 64).countP (fun s =>
      match pieceAt b s with
      | some p => p.color != c && p.kind != PieceKind.king && p.kind != PieceKind.queen
      | none => false)
  let bishopsOn : Bool → Nat := fun dark =>
    (List.range 64).countP (fun s =>
      match pieceAt b s with
      | some p => p.kind == PieceKind.bishop && (((fileOf s + rankOf s) % 2 == 0) == dark)
      | none => false)
  let pawnsOrKnights :=
    (List.range 64).countP (fun s =>
      match pieceAt b s with
      | some p => p.kind == PieceKind.pawn || p.kind == PieceKind.knight
      | none => false)
  if mine .pawn + mine .rook + mine .queen > 0 then false
  else if mine .knight > 0 then
    decide (myPieces ≤ 2 ∧ theirsBesidesKingsQueens = 0)
  else if mine .bishop > 0 then
    decide ((bishopsOn true = 0 ∨ bishopsOn false = 0) ∧ pawnsOrKnights = 0)
  else true

/-- Game over as used by the simulation loop to stop a trial
(python-chess `board.is_game_over()`): no legal move (checkmate or
stalemate), insufficient material on both sides, or the seventy-five-move
rule.  The remaining condition, fivefold repetition, depends on the move
history, which the position snapshot does not carry; no claim depends on
it. -/
def isGameOver (b : Board) : Bool :=
  (legalMoves b).isEmpty
  || (hasInsufficientMaterial b true && hasInsufficientMaterial b false)
  || decide (150 ≤ b.halfmove)

/-- One rank of the initial back pieces. -/
def backRank (c : Bool) : List (Option Piece) :=
  [some ⟨c, .rook⟩, some ⟨c, .knight⟩, some ⟨c, .bishop⟩, some ⟨c, .queen⟩,
   some ⟨c, .king⟩, some ⟨c, .bishop⟩, some ⟨c, .knight⟩, some ⟨c, .rook⟩]

/-- The standard starting position (python-chess `chess.Board()`). -/
def startBoard : Board :=
  { squares :=
      backRank true
      ++ List.replicate 8 (some ⟨true, .pawn⟩)
      ++ List.replicate 32 none
      ++ List.replicate 8 (some ⟨false, .pawn⟩)
      ++ backRank false
    turn := true
    castleWK := true
    castleWQ := true
    castleBK := true
    castleBQ := true
    ep := none
    halfmove := 0
    fullmove := 1 }

/-
  src/src/position_features.py — PositionFeatures.
-/

/-- Standard piece values (PositionFeatures.PIECE_VALUES). -/
def pieceValue : PieceKind → Nat
  | .pawn => 100
  | .knight => 320
  | .bishop => 330
  | .rook => 500
  | .queen => 900
  | .king => 0

/-- Result of PositionFeatures.calculate_material. -/
structure MaterialInfo where
  white_material : Nat
  black_material : Nat
  balance : Int
deriving DecidableEq

/-- PositionFeatures.calculate_material: summed piece values per side and
their signed difference. -/
def calculate_material (b : Board) : MaterialInfo :=
  let w := ((List.range 64).map (fun s =>
    match pieceAt b s with
    | some p => if p.color then pieceValue p.kind else 0
    | none => 0)).sum
  let bl := ((List.range 64).map (fun s =>
    match pieceAt b s with
    | some p => if p.color then 0 else pieceValue p.kind
    | none => 0)).sum
  ⟨w, bl, (w : Int) - bl⟩

/-- Result of PositionFeatures.mobility. -/
structure MobilityInfo where
  current_player_mobility : Nat
  opponent_mobility : Nat
  mobility_advantage : Int
deriving DecidableEq

/-- PositionFeatures.mobility: legal-move count of the side to move, and the
legal-move count after `board.push(chess.Move.null())`.  python-chess push
performs no legality check and never raises, so the `except` fallback that
would set opponent mobility to 0 is unreachable. -/
def mobility (b : Board) : MobilityInfo :=
  let current_mobility := (legalMoves b).length
  let opponent_mobility := (legalMoves (pushNull b)).length
  ⟨current_mobility, opponent_mobility,
   (current_mobility : Int) - opponent_mobility⟩

/-- Number of occupied squares (len(board.piece_map())). -/
def pieceCount (b : Board) : Nat :=
  (List.range 64).countP (fun s => (pieceAt b s).isSome)

/-- PositionFeatures.position_complexity:
`min((piece_count*2 + total_mobility/10 + total_material/100) / 3, 100)`. -/
def position_complexity (b : Board) : ℚ :=
  let material := calculate_material b
  let total_material : ℚ := (material.white_material : ℚ) + (material.black_material : ℚ)
  let mob := mobility b
  let total_mobility : ℚ := (mob.current_player_mobility : ℚ) + (mob.opponent_mobility : ℚ)
  let piece_ct : ℚ := (pieceCount b : ℚ)
  min ((piece_ct * 2 + total_mobility / 10 + total_material / 100) / 3) 100

/-
  src/src/stockfish_analyzer.py — StockfishAnalyzer, with the external
  engine process abstracted as an oracle.
-/

/-- One `chess.engine` analysis record as the code reads it:
`info["score"].relative.score()` (none for a mate score),
`info["score"].relative.mate()` and the principal variation `info["pv"]`. -/
structure EngineRecord where
  score_value : Option Int
  mate : Option Int
  pv : List Move
deriving DecidableEq

/-- The external world the risk core calls into: the engine process
(single-pv and multipv analyse calls, which can fail when the process dies),
the softmax/np.random.choice sampling draw of sample_plausible_moves and the
numpy floating-point square root, both abstracted as functions. -/
structure Oracle where
  analyse : Board → Except Unit EngineRecord
  analyseMulti : Board → Nat → Except Unit (List EngineRecord)
  draw : List (Move × Int) → Nat → List Move
  sqrtQ : ℚ → ℚ

/-- Result of StockfishAnalyzer.evaluate_position. -/
structure PositionEvaluation where
  score : ℚ
  mate_in : Option Int
  best_move : Option Move
  depth : Nat
deriving DecidableEq

/-- The score StockfishAnalyzer.evaluate_position derives from one engine
record: the ±10000 sentinel when a forced mate is reported, otherwise the
centipawn score (0 when the engine reports none). -/
def recordScore (info : EngineRecord) : ℚ :=
  match info.mate with
  | some ms => if ms > 0 then 10000 else -10000
  | none =>
    match info.score_value with
    | some v => (v : ℚ)
    | none => 0

/-- StockfishAnalyzer.evaluate_position: one engine analyse call, mapped to
a PositionEvaluation; `best_move` is the head of the principal variation
(the code's `str(best_move) if best_move else ""`). -/
def evaluate_position (O : Oracle) (depth : Nat) (b : Board) :
    Except Unit PositionEvaluation := do
  let info ← O.analyse b
  .ok ⟨recordScore info, info.mate, info.pv.head?, depth⟩

/-- One entry of StockfishAnalyzer.get_top_moves: move, centipawn score and
principal-variation prefix. -/
structure TopMove where
  move : Move
  score : Int
  pv : List Move
deriving DecidableEq

/-- One step of the result loop of get_top_moves: on a record with an empty
principal variation, the code's `pv_info["pv"][0]` raises. -/
def topMoveOf (info : EngineRecord) : Except Unit TopMove :=
  match info.pv.head? with
  | none => .error ()
  | some m => .ok ⟨m, info.score_value.getD 0, info.pv.take 5⟩

/-- StockfishAnalyzer.get_top_moves: the multipv analyse call is wrapped in
a bare `except` that returns the empty list, so an engine failure is
swallowed into a normal empty result; the result loop afterwards is outside
that handler. -/
def get_top_moves (O : Oracle) (b : Board) (num_moves : Nat) :
    Except Unit (List TopMove) :=
  match O.analyseMulti b num_moves with
  | .error _ => .ok []
  | .ok infos => infos.mapM topMoveOf

/-
  src/src/risk_calculator.py — RiskCalculator.
-/

/-- Container RiskMetrics of risk_calculator.py. -/
structure RiskMetrics where
  volatility : ℚ
  expected_value : ℚ
  downside_risk : ℚ
  var_95 : ℚ
  complexity_risk : ℚ
  tactical_density : ℚ
  best_move_edge : ℚ
deriving DecidableEq

/-- RiskCalculator.sample_plausible_moves: asks for up to
`min(5, board.legal_moves.count())` top moves; with no candidates it returns
no samples; otherwise the softmax over the shifted scores at temperature 100
and the `n_samples` i.i.d. np.random.choice draws (with their per-draw uci
parse) are the oracle's `draw`. -/
def sample_plausible_moves (O : Oracle) (b : Board) (n_samples : Nat) :
    Except Unit (List Move) := do
  let top ← get_top_moves O b (min 5 (legalMoves b).length)
  if top.isEmpty then
    .ok []
  else
    .ok (O.draw (top.map (fun t => (t.move, t.score))) n_samples)

/-- The inner loop of one Monte Carlo trial: up to `fuel` half-moves, each
drawn via sample_plausible_moves with one sample; the trial stops early when
the game is over or no move can be sampled. -/
def mcWalk (O : Oracle) : Nat → Board → Except Unit Board
  | 0, sb => .ok sb
  | fuel + 1, sb =>
    if isGameOver sb then .ok sb
    else do
      let moves ← sample_plausible_moves O sb 1
      match moves.head? with
      | none => .ok sb
      | some m => mcWalk O fuel (pushMove sb m)

/-- One trial of RiskCalculator.monte_carlo_simulation: walk
`depth_horizon * 2` half-moves, then evaluate the reached position; the
evaluation is sign-flipped to the original side to move's perspective, and a
trial whose final evaluation raises is dropped (the `try`/`except continue`
around the evaluation). -/
def mcTrial (O : Oracle) (depth : Nat) (b : Board) (depth_horizon : Nat) :
    Except Unit (Option ℚ) := do
  let sb ← mcWalk O (depth_horizon * 2) b
  match evaluate_position O depth sb with
  | .error _ => .ok none
  | .ok ev => .ok (some (if sb.turn ≠ b.turn then -ev.score else ev.score))

/-- RiskCalculator.monte_carlo_simulation: `n_simulations` independent
trials, collecting the surviving leaf evaluations. -/
def monte_carlo_simulation (O : Oracle) (depth : Nat) :
    Nat → Board → Nat → Except Unit (List ℚ)
  | 0, _, _ => .ok []
  | n + 1, b, depth_horizon => do
    let s ← mcTrial O depth b depth_horizon
    let rest ← monte_carlo_simulation O depth n b depth_horizon
    .ok (match s with
         | some v => v :: rest
         | none => rest)

/-- Mean of a list of rationals (np.mean). -/
def meanQ (l : List ℚ) : ℚ := l.sum / l.length

/-- RiskCalculator.calculate_volatility: population standard deviation
(np.std), 0 for fewer than two samples; the square root is the oracle's
floating-point sqrt applied to the exact population variance. -/
def calculate_volatility (O : Oracle) (evaluations : List ℚ) : ℚ :=
  if evaluations.length < 2 then 0
  else
    let m := meanQ evaluations
    O.sqrtQ ((evaluations.map (fun x => (x - m) ^ 2)).sum / evaluations.length)

/-- Insertion of a value into a sorted list of rationals. -/
def insertSorted (x : ℚ) : List ℚ → List ℚ
  | [] => [x]
  | y :: ys => if x ≤ y then x :: y :: ys else y :: insertSorted x ys

/-- Ascending insertion sort of rationals. -/
def sortQ (l : List ℚ) : List ℚ := l.foldr insertSorted []

/-- RiskCalculator.calculate_var: np.percentile with linear interpolation,
0 with no samples. -/
def calculate_var (evaluations : List ℚ) (percentile : ℚ) : ℚ :=
  if evaluations.isEmpty then 0
  else
    let sorted := sortQ evaluations
    let n := evaluations.length
    let pos : ℚ := percentile / 100 * ((n : ℚ) - 1)
    let i : Nat := (Int.floor pos).toNat
    let frac : ℚ := pos - (i : ℚ)
    if i + 1 < n then
      sorted.getD i 0 + frac * (sorted.getD (i + 1) 0 - sorted.getD i 0)
    else sorted.getD i 0

/-- RiskCalculator.calculate_downside_risk: fraction of samples strictly
below the threshold, 0 with no samples. -/
def calculate_downside_risk (evaluations : List ℚ) (threshold : ℚ) : ℚ :=
  if evaluations.isEmpty then 0
  else ((evaluations.countP (fun e => decide (e < threshold)) : ℚ)) / evaluations.length

/-- Checking moves among the legal moves of the position. -/
def checksCount (b : Board) : Nat :=
  (legalMoves b).countP (fun m => givesCheck b m)

/-- Capture moves among the legal moves of the position. -/
def capturesCount (b : Board) : Nat :=
  (legalMoves b).countP (fun m => isCaptureMove b m)

/-- Hanging pieces: squares whose piece has strictly more enemy attackers
than friendly defenders, with at least one attacker. -/
def hangingCount (b : Board) : Nat :=
  (List.range 64).countP (fun sq =>
    match pieceAt b sq with
    | some p =>
      decide (attackersCount b (!p.color) sq > attackersCount b p.color sq
        ∧ attackersCount b (!p.color) sq > 0)
    | none => false)

/-- The weighted tactical-density formula before its clamp arguments are
read off the board: `min(checks*5 + captures*2 + hanging*3, 100)`. -/
def tdFormula (checks captures hanging : Nat) : Nat :=
  min (checks * 5 + captures * 2 + hanging * 3) 100

/-- RiskCalculator.calculate_tactical_density. -/
def calculate_tactical_density (b : Board) : ℚ :=
  (tdFormula (checksCount b) (capturesCount b) (hangingCount b) : ℚ)

/-- RiskCalculator.calculate_move_edge: absolute centipawn gap between the
top two candidate moves, 0 when fewer than two exist. -/
def calculate_move_edge (O : Oracle) (b : Board) : Except Unit ℚ := do
  let top ← get_top_moves O b 3
  match top with
  | t0 :: t1 :: _ => .ok |(t0.score : ℚ) - (t1.score : ℚ)|
  | _ => .ok 0

/-- RiskCalculator.calculate_risk_metrics: Monte Carlo samples, the direct
evaluation, and the seven metrics.  `complexity_risk` is the `complexity`
entry of PositionFeatures.extract_all_features, which is
position_complexity of the board. -/
def calculate_risk_metrics (O : Oracle) (depth n_simulations : Nat) (b : Board) :
    Except Unit RiskMetrics := do
  let evaluations ← monte_carlo_simulation O depth n_simulations b 2
  let current_eval ← evaluate_position O depth b
  let volatility := calculate_volatility O evaluations
  let expected_value := if evaluations.isEmpty then current_eval.score else meanQ evaluations
  let downside_risk := calculate_downside_risk evaluations (-100)
  let var_95 := calculate_var evaluations 5
  let complexity_risk := position_complexity b
  let tactical_density := calculate_tactical_density b
  let best_move_edge ← calculate_move_edge O b
  .ok ⟨volatility, expected_value, downside_risk, var_95, complexity_risk,
       tactical_density, best_move_edge⟩

/-- RiskCalculator.risk_score: the fixed weighted sum of the metrics,
clamped to the interval from 0 to 100. -/
def risk_score (metrics : RiskMetrics) : ℚ :=
  let vol_component := min (metrics.volatility / 10) 100 * 0.3
  let downside_component := metrics.downside_risk * 100 * 0.25
  let complexity_component := metrics.complexity_risk * 0.2
  let tactical_component := metrics.tactical_density * 0.15
  let edge_reduction := min (metrics.best_move_edge / 100) 1 * 0.1 * 100
  let risk := vol_component + downside_component + complexity_component
    + tactical_component - edge_reduction
  max 0 (min risk 100)

/-
  src/src/game_analyzer.py — GameAnalyzer.
-/

/-- GameAnalyzer.BLUNDER_THRESHOLD. -/
def BLUNDER_THRESHOLD : ℚ := 300

/-- GameAnalyzer.MISTAKE_THRESHOLD. -/
def MISTAKE_THRESHOLD : ℚ := 150

/-- GameAnalyzer.INACCURACY_THRESHOLD. -/
def INACCURACY_THRESHOLD : ℚ := 50

/-- `was_blunder = eval_change < -self.BLUNDER_THRESHOLD`. -/
def blunderFlag (eval_change : ℚ) : Bool :=
  decide (eval_change < -BLUNDER_THRESHOLD)

/-- `was_mistake = -self.MISTAKE_THRESHOLD > eval_change >= -self.BLUNDER_THRESHOLD`. -/
def mistakeFlag (eval_change : ℚ) : Bool :=
  decide (-MISTAKE_THRESHOLD > eval_change ∧ eval_change ≥ -BLUNDER_THRESHOLD)

/-- `was_inaccuracy = -self.INACCURACY_THRESHOLD > eval_change >= -self.MISTAKE_THRESHOLD`. -/
def inaccuracyFlag (eval_change : ℚ) : Bool :=
  decide (-INACCURACY_THRESHOLD > eval_change ∧ eval_change ≥ -MISTAKE_THRESHOLD)

/-- The MoveAnalysis dataclass.  `move` stands for the SAN string, and the
two `fen` fields for the FEN strings, through the values those strings
injectively encode. -/
structure MoveAnalysis where
  move_number : Nat
  move : Move
  fen_before : Board
  fen_after : Board
  white_to_move : Bool
  eval_before : ℚ
  eval_after : ℚ
  eval_change : ℚ
  is_best_move : Bool
  risk_score : ℚ
  risk_metrics : RiskMetrics
  was_blunder : Bool
  was_mistake : Bool
  was_inaccuracy : Bool
deriving DecidableEq

/-- Configuration of a GameAnalyzer: engine search depth and Monte Carlo
simulation count. -/
structure AnalyzerConfig where
  depth : Nat
  n_simulations : Nat

/-- The MoveAnalysis record GameAnalyzer.analyze_move builds after the
post-move evaluation succeeded and the move was popped: the board here is
the entry board (restored by `board.pop()`), so `move_number` is its
fullmove number. -/
def mkMoveAnalysis (board : Board) (move : Move) (rm : RiskMetrics)
    (eval_before eval_after : ℚ) (is_best : Bool) : MoveAnalysis :=
  let eval_change := eval_after - eval_before
  { move_number := board.fullmove
    move := move
    fen_before := board
    fen_after := pushMove board move
    white_to_move := board.turn
    eval_before := eval_before
    eval_after := eval_after
    eval_change := eval_change
    is_best_move := is_best
    risk_score := risk_score rm
    risk_metrics := rm
    was_blunder := blunderFlag eval_change
    was_mistake := mistakeFlag eval_change
    was_inaccuracy := inaccuracyFlag eval_change }

/-- The failing condition of python-chess `board.san(move)` (and likewise
of `board.push(move)`): both assert only that the move's from-square holds
a piece and perform no other legality validation, so a move from an empty
square raises and every other move - legal or not - goes through. -/
def sanRaises (b : Board) (m : Move) : Bool :=
  (pieceAt b m.src).isNone

/-- GameAnalyzer.analyze_move, with the working board passed explicitly:
the result and the state the board is left in.  `board.san(move)` runs
first and raises exactly when the move's from-square is empty (python-chess
san/push assert only that; an illegal move from an occupied square is
analyzed as if legal); then the pre-move risk metrics and evaluations, the
best-move comparison, `board.push(move)`, the post-move evaluation and
`board.pop()`.  The pop is NOT in a `finally`: when the post-move
evaluation raises, the function exits with the pushed board. -/
def analyze_move (O : Oracle) (cfg : AnalyzerConfig) (board : Board) (move : Move) :
    Except Unit MoveAnalysis × Board :=
  if sanRaises board move = true then (.error (), board)
  else
    match calculate_risk_metrics O cfg.depth cfg.n_simulations board with
    | .error e => (.error e, board)
    | .ok risk_metrics_before =>
      match evaluate_position O cfg.depth board with
      | .error e => (.error e, board)
      | .ok eval_before_data =>
        match evaluate_position O cfg.depth board with
        | .error e => (.error e, board)
        | .ok best_move_data =>
          match evaluate_position O cfg.depth (pushMove board move) with
          | .error e => (.error e, pushMove board move)
          | .ok eval_after_data =>
            (.ok (mkMoveAnalysis board move risk_metrics_before
                    eval_before_data.score (-eval_after_data.score)
                    (best_move_data.best_move == some move)),
             board)

/-- The loop body of GameAnalyzer.analyze_game over the remaining moves:
each move is analyzed and, on success, appended and pushed onto the working
board; a move whose analysis raises is logged and skipped, and the loop
continues with the board in whatever state analyze_move left it. -/
def analyzeLoop (O : Oracle) (cfg : AnalyzerConfig) :
    Board → List Move → List MoveAnalysis × Board
  | board, [] => ([], board)
  | board, m :: ms =>
    match analyze_move O cfg board m with
    | (.ok a, b1) =>
      match analyzeLoop O cfg (pushMove b1 m) ms with
      | (rest, final) => (a :: rest, final)
    | (.error _, b1) => analyzeLoop O cfg b1 ms

/-- GameAnalyzer.analyze_game on a parsed mainline: an optional move cap
(`moves[:max_moves]`, applied only when max_moves is truthy, so a cap of 0
means no cap), then the per-move loop. -/
def analyze_game (O : Oracle) (cfg : AnalyzerConfig) (max_moves : Option Nat)
    (board : Board) (moves : List Move) : List MoveAnalysis × Board :=
  let moves :=
    match max_moves with
    | some k => if k = 0 then moves else moves.take k
    | none => moves
  analyzeLoop O cfg board moves

/-- The working board and move at each loop iteration of analyze_game: the
position each move appears at, in the Analyzer's own traversal. -/
def workingPairs (O : Oracle) (cfg : AnalyzerConfig) :
    Board → List Move → List (Board × Move)
  | _, [] => []
  | board, m :: ms =>
    (board, m) ::
      (match analyze_move O cfg board m with
       | (.ok _, b1) => workingPairs O cfg (pushMove b1 m) ms
       | (.error _, b1) => workingPairs O cfg b1 ms)

/-- Per-colour statistics of GameAnalyzer.generate_game_report. -/
structure ColorStats where
  avg_risk_score : ℚ
  max_risk_score : ℚ
  num_blunders : Nat
  num_mistakes : Nat
  num_inaccuracies : Nat
  num_best_moves : Nat
  avg_eval_loss : ℚ
  accuracy : ℚ
deriving DecidableEq

/-- The game report dict: the two per-colour entries are `none` for the
empty dicts of the empty-analyses branch. -/
structure GameReport where
  total_moves : Nat
  white : Option ColorStats
  black : Option ColorStats
  highest_risk_move : Nat
  total_blunders : Nat
  total_mistakes : Nat
deriving DecidableEq

/-- Maximum of a list of rationals, python `max` on a nonempty list. -/
def maxQ : List ℚ → ℚ
  | [] => 0
  | x :: xs => xs.foldl max x

/-- The inner color_stats helper of generate_game_report: an all-zero record
when the colour has no analyses. -/
def color_stats (l : List MoveAnalysis) : ColorStats :=
  if l.isEmpty then ⟨0, 0, 0, 0, 0, 0, 0, 0⟩
  else
    { avg_risk_score := (l.map (fun a => a.risk_score)).sum / l.length
      max_risk_score := maxQ (l.map (fun a => a.risk_score))
      num_blunders := l.countP (fun a => a.was_blunder)
      num_mistakes := l.countP (fun a => a.was_mistake)
      num_inaccuracies := l.countP (fun a => a.was_inaccuracy)
      num_best_moves := l.countP (fun a => a.is_best_move)
      avg_eval_loss := (l.map (fun a => min 0 a.eval_change)).sum / l.length
      accuracy := (l.countP (fun a => a.is_best_move) : ℚ) / l.length * 100 }

/-- `max(analyses, key=lambda a: a.risk_score)`: the first element of
maximal risk score. -/
def argmaxRisk (l : List MoveAnalysis) : Option MoveAnalysis :=
  l.foldl (fun best a =>
    match best with
    | none => some a
    | some cur => if a.risk_score > cur.risk_score then some a else some cur) none

/-- GameAnalyzer.generate_game_report. -/
def generate_game_report (analyses : List MoveAnalysis) : GameReport :=
  if analyses.isEmpty then ⟨0, none, none, 0, 0, 0⟩
  else
    let white_analyses := analyses.filter (fun a => a.white_to_move)
    let black_analyses := analyses.filter (fun a => !a.white_to_move)
    { total_moves := analyses.length
      white := some (color_stats white_analyses)
      black := some (color_stats black_analyses)
      highest_risk_move := ((argmaxRisk analyses).map (fun a => a.move_number)).getD 0
      total_blunders := analyses.countP (fun a => a.was_blunder)
      total_mistakes := analyses.countP (fun a => a.was_mistake) }

deriving instance DecidableEq for Except

attribute [local semireducible] Rat.add Rat.sub Rat.mul Rat.inv Rat.ofScientific

/-
  Concrete instances used by witnesses and counterexamples.
-/

/-- An engine oracle whose single-pv analyse always succeeds with a plain
zero score and whose multipv call always fails (so top-move lists are
empty); sampling draws nothing. -/
def okOracle : Oracle :=
  { analyse := fun _ => .ok ⟨some 0, none, []⟩
    analyseMulti := fun _ _ => .error ()
    draw := fun _ _ => []
    sqrtQ := fun _ => 0 }

/-- Analyzer configuration with search depth 12 and no Monte Carlo trials. -/
def cfg0 : AnalyzerConfig := ⟨12, 0⟩

/-- The move e2e4 in coordinates. -/
def e2e4 : Move := ⟨12, 28, none⟩

/-- The position after 1. e4 from the starting position. -/
def afterE4 : Board := pushMove startBoard e2e4

/-- The Scholar's Mate line e4 e5 Bc4 Nc6 Qh5 Nf6 Qxf7#, seven half-moves
in coordinates. -/
def scholarsMate : List Move :=
  [⟨12, 28, none⟩, ⟨52, 36, none⟩, ⟨5, 26, none⟩, ⟨57, 42, none⟩,
   ⟨3, 39, none⟩, ⟨62, 45, none⟩, ⟨39, 53, none⟩]

/-- A position with white king e1, black rook e4 and black king e8, white
to move: the side to move is in check. -/
def checkedBoard : Board :=
  { squares := (((List.replicate 64 (none : Option Piece)).set 4
      (some ⟨true, .king⟩)).set 28 (some ⟨false, .rook⟩)).set 60
      (some ⟨false, .king⟩)
    turn := true
    castleWK := false
    castleWQ := false
    castleBK := false
    castleBQ := false
    ep := none
    halfmove := 0
    fullmove := 1 }

/-- Like okOracle, but the engine process dies exactly when asked to
evaluate the position after 1. e4: the analyse call there fails. -/
def failAfterE4Oracle : Oracle :=
  { analyse := fun bd => if bd = afterE4 then .error () else .ok ⟨some 0, none, []⟩
    analyseMulti := fun _ _ => .error ()
    draw := fun _ _ => []
    sqrtQ := fun _ => 0 }

/-- Like okOracle, but the position after 1. e4 evaluates to +50 for the
side to move, so analyzing 1. e4 yields an evaluation change of exactly
−50 centipawns. -/
def minus50Oracle : Oracle :=
  { analyse := fun bd =>
      if bd = afterE4 then .ok ⟨some 50, none, []⟩ else .ok ⟨some 0, none, []⟩
    analyseMulti := fun _ _ => .error ()
    draw := fun _ _ => []
    sqrtQ := fun _ => 0 }

/-- A three-move list whose middle position makes the third move illegal:
e2e4, a7a5, then a7a5 again (there is no longer a pawn on a7). -/
def oneIllegalMoves : List Move :=
  [⟨12, 28, none⟩, ⟨48, 32, none⟩, ⟨48, 32, none⟩]

/-
  Claim theorems.
-/

/-- Claim C1: risk_score is the fixed weighted sum
0.3*min(volatility/10,100) + 0.25*(downside_risk*100) + 0.2*complexity_risk
+ 0.15*tactical_density − 0.1*min(best_move_edge/100,1)*100 clamped to the
interval [0,100], and in particular lies in [0,100] for every RiskMetrics
record. -/
theorem C1_risk_score_formula_and_bounds (m : RiskMetrics) :
    risk_score m =
      max 0 (min (0.3 * min (m.volatility / 10) 100 + 0.25 * (m.downside_risk * 100)
        + 0.2 * m.complexity_risk + 0.15 * m.tactical_density
        - 0.1 * min (m.best_move_edge / 100) 1 * 100) 100)
    ∧ 0 ≤ risk_score m ∧ risk_score m ≤ 100 := by
  refine ⟨?_, ?_, ?_⟩
  · simp only [risk_score]
    ring_nf
  · simp only [risk_score]
    exact le_max_left 0 _
  · simp only [risk_score]
    exact max_le (by norm_num) (min_le_right _ 100)

/-- Claim C7, counterexample: when the engine process dies during the
multipv call, get_top_moves returns the ordinary empty list — the failure
is not surfaced to the caller. -/
theorem C7_counterexample_error_swallowed :
    okOracle.analyseMulti startBoard 3 = .error ()
    ∧ get_top_moves okOracle startBoard 3 = .ok [] :=
  ⟨rfl, rfl⟩

/-- Claim C7, amended: whenever the engine's multipv analyse call fails,
get_top_moves swallows the error and returns a successful empty list,
indistinguishable from a position with no candidate moves. -/
theorem C7_engine_error_swallowed (O : Oracle) (b : Board) (n : Nat)
    (h : O.analyseMulti b n = .error ()) : get_top_moves O b n = .ok [] := by
  unfold get_top_moves
  rw [h]

/-- Witness for C7_engine_error_swallowed at the concrete failing oracle. -/
theorem C7_engine_error_swallowed_witness :
    get_top_moves okOracle startBoard 3 = .ok [] :=
  C7_engine_error_swallowed okOracle startBoard 3 rfl

/-- Claim C9, counterexample: in a position where the side to move is in
check, the code does not report opponent mobility 0 — python-chess accepts
the null push even in check, so the count of the opponent's moves in the
null-moved position (here 18) is returned. -/
theorem C9_counterexample_mobility_in_check :
    inCheck checkedBoard = true
    ∧ (mobility checkedBoard).opponent_mobility = 18
    ∧ (mobility checkedBoard).opponent_mobility ≠ 0 := by
  decide

/-- Claim C9, amended: for every position — in check or not — opponent
mobility is the legal-move count of the null-pushed position (the in-check
fallback to 0 is dead code), and the mobility advantage is the current
player's legal-move count minus the opponent's. -/
theorem C9_mobility_null_push (b : Board) :
    mobility b =
      ⟨(legalMoves b).length, (legalMoves (pushNull b)).length,
       ((legalMoves b).length : Int) - ((legalMoves (pushNull b)).length : Int)⟩ :=
  rfl

/-- Claim C8: tactical density is min(checks*5 + captures*2 + hanging*3, 100)
over the legal-move checks/captures counts and the hanging-piece count, the
result lies in [0,100], and the formula is monotone non-decreasing in each
count holding the others fixed. -/
theorem C8_tactical_density_formula (b : Board) (c c' k k' g g' : Nat) :
    calculate_tactical_density b
        = ((tdFormula (checksCount b) (capturesCount b) (hangingCount b) : Nat) : ℚ)
    ∧ 0 ≤ calculate_tactical_density b
    ∧ calculate_tactical_density b ≤ 100
    ∧ (c ≤ c' → tdFormula c k g ≤ tdFormula c' k g)
    ∧ (k ≤ k' → tdFormula c k g ≤ tdFormula c k' g)
    ∧ (g ≤ g' → tdFormula c k g ≤ tdFormula c k g') := by
  refine ⟨rfl, ?_, ?_, ?_, ?_, ?_⟩
  · simp only [calculate_tactical_density]
    exact Nat.cast_nonneg _
  · simp only [calculate_tactical_density]
    have hle : tdFormula (checksCount b) (capturesCount b) (hangingCount b) ≤ 100 :=
      min_le_right _ _
    exact_mod_cast hle
  · intro hc
    exact min_le_min (by omega) le_rfl
  · intro hk
    exact min_le_min (by omega) le_rfl
  · intro hg
    exact min_le_min (by omega) le_rfl

/-- Witness for C8_tactical_density_formula at the starting position and
concrete counts. -/
theorem C8_tactical_density_witness :
    0 ≤ calculate_tactical_density startBoard ∧ tdFormula 0 0 0 ≤ tdFormula 1 0 0 :=
  ⟨(C8_tactical_density_formula startBoard 0 1 0 0 0 0).2.1,
   (C8_tactical_density_formula startBoard 0 1 0 0 0 0).2.2.2.1 (by decide)⟩

/-- Every successful analyze_move result is a mkMoveAnalysis record for the
entry board and move. -/
theorem analyze_move_ok_shape (O : Oracle) (cfg : AnalyzerConfig) (b : Board)
    (m : Move) (a : MoveAnalysis) (b2 : Board)
    (h : analyze_move O cfg b m = (.ok a, b2)) :
    ∃ rm eb ea ib, a = mkMoveAnalysis b m rm eb ea ib := by
  unfold analyze_move at h
  split at h
  · simp at h
  · split at h
    · simp at h
    · split at h
      · simp at h
      · split at h
        · simp at h
        · split at h
          · simp at h
          · simp only [Prod.mk.injEq, Except.ok.injEq] at h
            exact ⟨_, _, _, _, h.1.symm⟩

/-- The three quality flags of the classification lines, as predicates of
the evaluation change. -/
theorem flag_ranges (x : ℚ) :
    (blunderFlag x = true ↔ x < -300)
    ∧ (mistakeFlag x = true ↔ -300 ≤ x ∧ x < -150)
    ∧ (inaccuracyFlag x = true ↔ -150 ≤ x ∧ x < -50) := by
  refine ⟨?_, ?_, ?_⟩
  · simp only [blunderFlag, BLUNDER_THRESHOLD, decide_eq_true_eq]
  · simp only [mistakeFlag, MISTAKE_THRESHOLD, BLUNDER_THRESHOLD, decide_eq_true_eq]
    constructor
    · rintro ⟨h1, h2⟩
      exact ⟨by linarith, by linarith⟩
    · rintro ⟨h1, h2⟩
      exact ⟨by linarith, by linarith⟩
  · simp only [inaccuracyFlag, INACCURACY_THRESHOLD, MISTAKE_THRESHOLD,
      decide_eq_true_eq]
    constructor
    · rintro ⟨h1, h2⟩
      exact ⟨by linarith, by linarith⟩
    · rintro ⟨h1, h2⟩
      exact ⟨by linarith, by linarith⟩

/-- The flags a mkMoveAnalysis record carries are the flag functions of its
own evaluation change. -/
theorem mkMoveAnalysis_flags (b : Board) (m : Move) (rm : RiskMetrics)
    (eb ea : ℚ) (ib : Bool) :
    (mkMoveAnalysis b m rm eb ea ib).was_blunder
        = blunderFlag ((mkMoveAnalysis b m rm eb ea ib).eval_change)
    ∧ (mkMoveAnalysis b m rm eb ea ib).was_mistake
        = mistakeFlag ((mkMoveAnalysis b m rm eb ea ib).eval_change)
    ∧ (mkMoveAnalysis b m rm eb ea ib).was_inaccuracy
        = inaccuracyFlag ((mkMoveAnalysis b m rm eb ea ib).eval_change) :=
  ⟨rfl, rfl, rfl⟩

/-- Claim C2, counterexample: analyzing 1. e4 under an engine for which the
evaluation change is exactly −50 centipawns produces a MoveAnalysis with
was_inaccuracy false (and no other flag either): the boundary −50 is
classified good, not inaccuracy. -/
theorem C2_counterexample_minus50_not_inaccuracy :
    ((analyze_move minus50Oracle cfg0 startBoard e2e4).1.toOption.map
      (fun a => (a.eval_change, a.was_inaccuracy, a.was_mistake, a.was_blunder)))
      = some (-50, false, false, false) := by
  decide

/-- The MoveAnalysis record produced by analyzing 1. e4 from the start
under minus50Oracle. -/
def minus50Analysis : MoveAnalysis :=
  mkMoveAnalysis startBoard e2e4 ⟨0, 0, 0, 0, 148 / 3, 0, 0⟩ 0 (-50) false

/-- The MoveAnalysis record produced by analyzing 1. e4 from the start
under okOracle. -/
def zeroChangeAnalysis : MoveAnalysis :=
  mkMoveAnalysis startBoard e2e4 ⟨0, 0, 0, 0, 148 / 3, 0, 0⟩ 0 0 false

/-- Claim C2, amended: the classification ranges of every analyzed move are
blunder for change < −300, mistake for −300 ≤ change < −150 and inaccuracy
for −150 ≤ change < −50, with the boundary values falling into the milder
class: exactly −300 is a mistake, exactly −150 an inaccuracy and exactly
−50 unflagged (good). -/
theorem C2_classification_ranges (O : Oracle) (cfg : AnalyzerConfig) (b : Board)
    (m : Move) (a : MoveAnalysis) (b2 : Board)
    (h : analyze_move O cfg b m = (.ok a, b2)) :
    (a.was_blunder = true ↔ a.eval_change < -300)
    ∧ (a.was_mistake = true ↔ -300 ≤ a.eval_change ∧ a.eval_change < -150)
    ∧ (a.was_inaccuracy = true ↔ -150 ≤ a.eval_change ∧ a.eval_change < -50)
    ∧ mistakeFlag (-300) = true ∧ blunderFlag (-300) = false
    ∧ inaccuracyFlag (-150) = true ∧ mistakeFlag (-150) = false
    ∧ inaccuracyFlag (-50) = false := by
  obtain ⟨rm, eb, ea, ib, rfl⟩ := analyze_move_ok_shape O cfg b m a b2 h
  obtain ⟨hb, hm, hi⟩ := mkMoveAnalysis_flags b m rm eb ea ib
  rw [hb, hm, hi]
  obtain ⟨fb, fm, fi⟩ := flag_ranges ((mkMoveAnalysis b m rm eb ea ib).eval_change)
  exact ⟨fb, fm, fi, by decide, by decide, by decide, by decide, by decide⟩

set_option maxRecDepth 200000 in
/-- Witness for C2_classification_ranges: the concrete −50 run. -/
theorem C2_classification_ranges_witness :
    minus50Analysis.was_inaccuracy = true
      ↔ -150 ≤ minus50Analysis.eval_change ∧ minus50Analysis.eval_change < -50 :=
  (C2_classification_ranges minus50Oracle cfg0 startBoard e2e4 minus50Analysis
    startBoard (by decide)).2.2.1

/-- Claim C10: in every produced MoveAnalysis at most one of was_blunder,
was_mistake, was_inaccuracy is true, and none of the three is true exactly
when the evaluation change is at least −50 centipawns. -/
theorem C10_flag_exclusivity (O : Oracle) (cfg : AnalyzerConfig) (b : Board)
    (m : Move) (a : MoveAnalysis) (b2 : Board)
    (h : analyze_move O cfg b m = (.ok a, b2)) :
    ¬(a.was_blunder = true ∧ a.was_mistake = true)
    ∧ ¬(a.was_blunder = true ∧ a.was_inaccuracy = true)
    ∧ ¬(a.was_mistake = true ∧ a.was_inaccuracy = true)
    ∧ ((a.was_blunder = false ∧ a.was_mistake = false ∧ a.was_inaccuracy = false)
        ↔ -50 ≤ a.eval_change) := by
  obtain ⟨rm, eb, ea, ib, rfl⟩ := analyze_move_ok_shape O cfg b m a b2 h
  obtain ⟨hb, hm, hi⟩ := mkMoveAnalysis_flags b m rm eb ea ib
  rw [hb, hm, hi]
  set x := (mkMoveAnalysis b m rm eb ea ib).eval_change with hx
  obtain ⟨fb, fm, fi⟩ := flag_ranges x
  constructor
  · rintro ⟨h1, h2⟩
    have := fb.mp h1
    obtain ⟨h3, _⟩ := fm.mp h2
    linarith
  constructor
  · rintro ⟨h1, h2⟩
    have := fb.mp h1
    obtain ⟨h3, _⟩ := fi.mp h2
    linarith
  constructor
  · rintro ⟨h1, h2⟩
    obtain ⟨_, h3⟩ := fm.mp h1
    obtain ⟨h4, _⟩ := fi.mp h2
    linarith
  · constructor
    · rintro ⟨h1, h2, h3⟩
      by_contra hlt
      push_neg at hlt
      rcases lt_trichotomy x (-300) with hc | hc | hc
      · exact absurd (fb.mpr hc) (by simp [h1])
      · have : mistakeFlag x = true := fm.mpr ⟨le_of_eq hc.symm, by linarith⟩
        simp [h2] at this
      · rcases le_or_lt (-150) x with hd | hd
        · have : inaccuracyFlag x = true := fi.mpr ⟨hd, hlt⟩
          simp [h3] at this
        · have : mistakeFlag x = true := fm.mpr ⟨le_of_lt hc, hd⟩
          simp [h2] at this
    · intro hge
      refine ⟨?_, ?_, ?_⟩
      · by_contra hne
        have h1 : blunderFlag x = true := by
          cases hcase : blunderFlag x
          · exact absurd hcase hne
          · rfl
        have := fb.mp h1
        linarith
      · by_contra hne
        have h1 : mistakeFlag x = true := by
          cases hcase : mistakeFlag x
          · exact absurd hcase hne
          · rfl
        obtain ⟨_, h3⟩ := fm.mp h1
        linarith
      · by_contra hne
        have h1 : inaccuracyFlag x = true := by
          cases hcase : inaccuracyFlag x
          · exact absurd hcase hne
          · rfl
        obtain ⟨_, h3⟩ := fi.mp h1
        linarith

set_option maxRecDepth 200000 in
/-- Claim C3, failing run: with an engine that dies exactly on the
evaluation of the position after the pushed move, analyze_move raises and
exits with the working board still holding the pushed move — `board.pop()`
is not reached, so the board is NOT restored to its entry state. -/
theorem C3_board_left_pushed_on_eval_error :
    (analyze_move failAfterE4Oracle cfg0 startBoard e2e4).1.isOk = false
    ∧ (analyze_move failAfterE4Oracle cfg0 startBoard e2e4).2 = pushMove startBoard e2e4
    ∧ pushMove startBoard e2e4 ≠ startBoard := by
  refine ⟨by decide, by decide, by decide⟩

/-- The full run of analyze_game over the Scholar's Mate line under
okOracle. -/
def scholarsRun : List MoveAnalysis × Board :=
  analyze_game okOracle cfg0 none startBoard scholarsMate

set_option maxRecDepth 200000 in
/-- Observed shape of the Scholar's Mate run: the side-to-move flags of the
produced records, and checkmate of the final working board, read off in one
traversal. -/
theorem scholarsRun_obs :
    (match scholarsRun with
     | (l, final) => (l.map (fun a => a.white_to_move), isCheckmate final))
      = ([true, false, true, false, true, false, true], true) := by
  decide

/-- The per-entry side-to-move flags of the Scholar's Mate run. -/
theorem scholarsRun_white_flags :
    scholarsRun.1.map (fun a => a.white_to_move)
      = [true, false, true, false, true, false, true] :=
  (Prod.ext_iff.mp scholarsRun_obs).1

/-- The Scholar's Mate run ends in checkmate. -/
theorem scholarsRun_checkmate : isCheckmate scholarsRun.2 = true :=
  (Prod.ext_iff.mp scholarsRun_obs).2

/-- Claim C5, counterexample: analyzing the seven half-moves of Scholar's
Mate produces seven MoveAnalysis entries — one per half-move — not four. -/
theorem C5_counterexample_entry_count :
    scholarsRun.1.length = 7 ∧ scholarsRun.1.length ≠ 4 := by
  have h : scholarsRun.1.length = 7 := by
    have := congrArg List.length scholarsRun_white_flags
    simpa using this
  exact ⟨h, by rw [h]; decide⟩

/-- Claim C5, amended: the Scholar's Mate sequence of seven half-moves
yields exactly seven MoveAnalysis entries, alternating white and black and
starting with white, the final position is checkmate, and a forced-mate
engine report maps to the ±10000 evaluation sentinel. -/
theorem C5_amended_scholars_mate :
    scholarsRun.1.length = 7
    ∧ scholarsRun.1.map (fun a => a.white_to_move)
        = [true, false, true, false, true, false, true]
    ∧ isCheckmate scholarsRun.2 = true
    ∧ recordScore ⟨none, some 2, []⟩ = 10000
    ∧ recordScore ⟨none, some (-2), []⟩ = -10000 := by
  refine ⟨?_, scholarsRun_white_flags, scholarsRun_checkmate, by decide, by decide⟩
  have := congrArg List.length scholarsRun_white_flags
  simpa using this

/-- Claim C6: every empty-input condition yields a well-defined zero/empty
result without raising — an empty move list yields no analyses and the
all-zero report, zero simulations yield an empty sample list, and with no
leaf samples calculate_risk_metrics falls back to the direct evaluation for
expected_value (given that the direct engine call and the top-move
enumeration themselves succeed). -/
theorem C6_empty_inputs (O : Oracle) (cfg : AnalyzerConfig) (mm : Option Nat)
    (b : Board) (d dh : Nat) (raw : EngineRecord) (e : ℚ)
    (hA : O.analyse b = .ok raw) (hE : calculate_move_edge O b = .ok e) :
    analyze_game O cfg mm b [] = ([], b)
    ∧ generate_game_report [] = ⟨0, none, none, 0, 0, 0⟩
    ∧ monte_carlo_simulation O d 0 b dh = .ok []
    ∧ calculate_risk_metrics O d 0 b
        = .ok ⟨0, recordScore raw, 0, 0, position_complexity b,
               calculate_tactical_density b, e⟩ := by
  refine ⟨?_, rfl, rfl, ?_⟩
  · unfold analyze_game
    cases mm with
    | none => rfl
    | some k =>
      by_cases hk : k = 0
      · simp [hk, analyzeLoop]
      · simp [hk, analyzeLoop]
  · unfold calculate_risk_metrics
    simp only [monte_carlo_simulation, evaluate_position, hA, hE, Bind.bind,
      Except.bind, Except.pure, pure]
    simp [calculate_volatility, calculate_downside_risk, calculate_var]

/-- Witness for C6_empty_inputs at the concrete okOracle and the starting
position. -/
theorem C6_empty_inputs_witness :
    calculate_risk_metrics okOracle 12 0 startBoard
      = .ok ⟨0, recordScore ⟨some 0, none, []⟩, 0, 0, position_complexity startBoard,
             calculate_tactical_density startBoard, 0⟩ :=
  (C6_empty_inputs okOracle cfg0 none startBoard 12 2 ⟨some 0, none, []⟩ 0
    rfl rfl).2.2.2

set_option maxRecDepth 200000 in
/-- Witness for C10_flag_exclusivity: the concrete zero-change run. -/
theorem C10_flag_exclusivity_witness :
    ¬(zeroChangeAnalysis.was_blunder = true ∧ zeroChangeAnalysis.was_mistake = true)
    ∧ ¬(zeroChangeAnalysis.was_blunder = true ∧ zeroChangeAnalysis.was_inaccuracy = true)
    ∧ ¬(zeroChangeAnalysis.was_mistake = true ∧ zeroChangeAnalysis.was_inaccuracy = true)
    ∧ ((zeroChangeAnalysis.was_blunder = false ∧ zeroChangeAnalysis.was_mistake = false
        ∧ zeroChangeAnalysis.was_inaccuracy = false)
        ↔ -50 ≤ zeroChangeAnalysis.eval_change) :=
  C10_flag_exclusivity okOracle cfg0 startBoard e2e4 zeroChangeAnalysis
    startBoard (by decide)

/-
  Claim C4: the analyze_game loop under an engine that never fails.
-/

/-- Bind of a successful Except computation reduces to the continuation. -/
theorem exceptBind_ok {α β : Type} (a : α) (f : α → Except Unit β) :
    (Except.ok a >>= f) = f a := rfl

/-- An engine oracle that never fails: every single-pv analyse call
succeeds, and every successful multipv call returns only records with a
nonempty principal variation (so the get_top_moves result loop cannot
raise either). -/
def OracleTotal (O : Oracle) : Prop :=
  (∀ b, ∃ r, O.analyse b = .ok r)
  ∧ (∀ b n infos, O.analyseMulti b n = .ok infos → ∀ info ∈ infos, info.pv ≠ [])

/-- The get_top_moves result loop succeeds on records with nonempty
principal variations. -/
theorem mapM_topMoveOf_ok (infos : List EngineRecord)
    (h : ∀ info ∈ infos, info.pv ≠ []) :
    ∃ l, infos.mapM topMoveOf = Except.ok l := by
  induction infos with
  | nil => exact ⟨[], rfl⟩
  | cons i is ih =>
    obtain ⟨l, hl⟩ := ih (fun j hj => h j (List.mem_cons_of_mem _ hj))
    have hip : i.pv ≠ [] := h i (List.mem_cons_self _ _)
    cases hpv : i.pv with
    | nil => exact absurd hpv hip
    | cons a as =>
      have h1 : topMoveOf i = .ok ⟨a, i.score_value.getD 0, (a :: as).take 5⟩ := by
        unfold topMoveOf
        rw [hpv]
        rfl
      refine ⟨⟨a, i.score_value.getD 0, (a :: as).take 5⟩ :: l, ?_⟩
      rw [List.mapM_cons, h1, exceptBind_ok, hl, exceptBind_ok]
      rfl

/-- Under a total oracle, get_top_moves always succeeds. -/
theorem get_top_moves_ok (O : Oracle) (hT : OracleTotal O) (b : Board) (n : Nat) :
    ∃ l, get_top_moves O b n = .ok l := by
  unfold get_top_moves
  cases h : O.analyseMulti b n with
  | error e => exact ⟨[], rfl⟩
  | ok infos => exact mapM_topMoveOf_ok infos (hT.2 b n infos h)

/-- Under a total oracle, sample_plausible_moves always succeeds. -/
theorem sample_plausible_moves_ok (O : Oracle) (hT : OracleTotal O) (b : Board)
    (n : Nat) : ∃ l, sample_plausible_moves O b n = .ok l := by
  obtain ⟨t, ht⟩ := get_top_moves_ok O hT b (min 5 (legalMoves b).length)
  by_cases he : t.isEmpty
  · refine ⟨[], ?_⟩
    unfold sample_plausible_moves
    rw [ht]
    simp [Bind.bind, Except.bind, he]
  · refine ⟨O.draw (t.map (fun x => (x.move, x.score))) n, ?_⟩
    unfold sample_plausible_moves
    rw [ht]
    simp [Bind.bind, Except.bind, he]

/-- Under a total oracle, evaluate_position always succeeds. -/
theorem evaluate_position_ok (O : Oracle) (hT : OracleTotal O) (d : Nat)
    (b : Board) : ∃ pe, evaluate_position O d b = .ok pe := by
  obtain ⟨r, hr⟩ := hT.1 b
  refine ⟨⟨recordScore r, r.mate, r.pv.head?, d⟩, ?_⟩
  unfold evaluate_position
  rw [hr, exceptBind_ok]

/-- Under a total oracle, the Monte Carlo walk always succeeds. -/
theorem mcWalk_ok (O : Oracle) (hT : OracleTotal O) (fuel : Nat) (sb : Board) :
    ∃ r, mcWalk O fuel sb = .ok r := by
  induction fuel generalizing sb with
  | zero => exact ⟨sb, rfl⟩
  | succ n ih =>
    by_cases hg : isGameOver sb
    · exact ⟨sb, by simp [mcWalk, hg]⟩
    · obtain ⟨mv, hmv⟩ := sample_plausible_moves_ok O hT sb 1
      cases hh : mv.head? with
      | none => exact ⟨sb, by simp [mcWalk, hg, hmv, hh, Bind.bind, Except.bind]⟩
      | some m =>
        obtain ⟨r, hr⟩ := ih (pushMove sb m)
        exact ⟨r, by simp [mcWalk, hg, hmv, hh, hr, Bind.bind, Except.bind]⟩

/-- Under a total oracle, a Monte Carlo trial always succeeds. -/
theorem mcTrial_ok (O : Oracle) (hT : OracleTotal O) (d : Nat) (b : Board)
    (dh : Nat) : ∃ r, mcTrial O d b dh = .ok r := by
  obtain ⟨sb, hsb⟩ := mcWalk_ok O hT (dh * 2) b
  cases he : evaluate_position O d sb with
  | error e => exact ⟨none, by simp [mcTrial, hsb, he, Bind.bind, Except.bind]⟩
  | ok ev =>
    refine ⟨some (if sb.turn ≠ b.turn then -ev.score else ev.score), ?_⟩
    simp [mcTrial, hsb, he, Bind.bind, Except.bind]

/-- Under a total oracle, the Monte Carlo simulation always succeeds. -/
theorem monte_carlo_simulation_ok (O : Oracle) (hT : OracleTotal O) (d : Nat)
    (n : Nat) (b : Board) (dh : Nat) :
    ∃ l, monte_carlo_simulation O d n b dh = .ok l := by
  induction n with
  | zero => exact ⟨[], rfl⟩
  | succ k ih =>
    obtain ⟨r, hr⟩ := mcTrial_ok O hT d b dh
    obtain ⟨l, hl⟩ := ih
    cases r with
    | some v =>
      refine ⟨v :: l, ?_⟩
      simp [monte_carlo_simulation, hr, hl, Bind.bind, Except.bind]
    | none =>
      refine ⟨l, ?_⟩
      simp [monte_carlo_simulation, hr, hl, Bind.bind, Except.bind]

/-- Under a total oracle, calculate_move_edge always succeeds. -/
theorem calculate_move_edge_ok (O : Oracle) (hT : OracleTotal O) (b : Board) :
    ∃ e, calculate_move_edge O b = .ok e := by
  obtain ⟨t, ht⟩ := get_top_moves_ok O hT b 3
  match t, ht with
  | [], ht =>
    refine ⟨0, ?_⟩
    unfold calculate_move_edge
    rw [ht]
    rfl
  | [t0], ht =>
    refine ⟨0, ?_⟩
    unfold calculate_move_edge
    rw [ht]
    rfl
  | t0 :: t1 :: rest, ht =>
    refine ⟨|(t0.score : ℚ) - (t1.score : ℚ)|, ?_⟩
    unfold calculate_move_edge
    rw [ht]
    rfl

/-- Under a total oracle, calculate_risk_metrics always succeeds. -/
theorem calculate_risk_metrics_ok (O : Oracle) (hT : OracleTotal O)
    (d n : Nat) (b : Board) : ∃ rm, calculate_risk_metrics O d n b = .ok rm := by
  obtain ⟨l, hl⟩ := monte_carlo_simulation_ok O hT d n b 2
  obtain ⟨pe, hpe⟩ := evaluate_position_ok O hT d b
  obtain ⟨e, he⟩ := calculate_move_edge_ok O hT b
  refine ⟨⟨calculate_volatility O l,
           if l.isEmpty then pe.score else meanQ l,
           calculate_downside_risk l (-100), calculate_var l 5,
           position_complexity b, calculate_tactical_density b, e⟩, ?_⟩
  simp [calculate_risk_metrics, hl, hpe, he, Bind.bind, Except.bind]

/-- On a move whose from-square is empty in the working position,
analyze_move raises at `board.san(move)` and leaves the board untouched. -/
theorem analyze_move_srcEmpty (O : Oracle) (cfg : AnalyzerConfig) (b : Board)
    (m : Move) (h : sanRaises b m = true) :
    analyze_move O cfg b m = (.error (), b) := by
  simp [analyze_move, h]

/-- Under a total oracle, analyze_move succeeds on every move whose
from-square holds a piece - legal or not - and returns the board restored
to its entry state. -/
theorem analyze_move_ok_of_src_occupied (O : Oracle) (hT : OracleTotal O)
    (cfg : AnalyzerConfig) (b : Board) (m : Move) (h : sanRaises b m = false) :
    ∃ a, analyze_move O cfg b m = (.ok a, b) := by
  obtain ⟨rm, hrm⟩ := calculate_risk_metrics_ok O hT cfg.depth cfg.n_simulations b
  obtain ⟨pe, hpe⟩ := evaluate_position_ok O hT cfg.depth b
  obtain ⟨pe3, hpe3⟩ := evaluate_position_ok O hT cfg.depth (pushMove b m)
  refine ⟨mkMoveAnalysis b m rm pe.score (-pe3.score) (pe.best_move == some m), ?_⟩
  simp [analyze_move, h, hrm, hpe, hpe3]

/-- The analyze_game loop visits exactly one working pair per input move. -/
theorem workingPairs_length (O : Oracle) (cfg : AnalyzerConfig) :
    ∀ (ms : List Move) (b : Board), (workingPairs O cfg b ms).length = ms.length := by
  intro ms
  induction ms with
  | nil => intro b; rfl
  | cons m ms ih =>
    intro b
    cases hr : analyze_move O cfg b m with
    | mk r b1 =>
      cases r with
      | error e => simp [workingPairs, hr, ih]
      | ok a => simp [workingPairs, hr, ih]

/-- Under a total oracle, the number of analyses the loop produces is the
number of input moves minus the number of moves whose from-square is empty
in the working position where they appear (the only raising condition of
python-chess san/push); no exception escapes the loop (it is a total
function). -/
theorem analyzeLoop_length (O : Oracle) (cfg : AnalyzerConfig)
    (hT : OracleTotal O) :
    ∀ (ms : List Move) (b : Board),
      (analyzeLoop O cfg b ms).1.length
        = ms.length
          - (workingPairs O cfg b ms).countP (fun pr => sanRaises pr.1 pr.2) := by
  intro ms
  induction ms with
  | nil => intro b; rfl
  | cons m ms ih =>
    intro b
    cases hL : sanRaises b m with
    | true =>
      have he := analyze_move_srcEmpty O cfg b m hL
      have hc : (workingPairs O cfg b (m :: ms)).countP
          (fun pr => sanRaises pr.1 pr.2)
          = (workingPairs O cfg b ms).countP (fun pr => sanRaises pr.1 pr.2) + 1 := by
        simp [workingPairs, he, List.countP_cons, hL]
      have hloop : (analyzeLoop O cfg b (m :: ms)).1.length
          = (analyzeLoop O cfg b ms).1.length := by
        simp [analyzeLoop, he]
      have hbound : (workingPairs O cfg b ms).countP
          (fun pr => sanRaises pr.1 pr.2) ≤ ms.length := by
        calc (workingPairs O cfg b ms).countP (fun pr => sanRaises pr.1 pr.2)
            ≤ (workingPairs O cfg b ms).length := List.countP_le_length _
          _ = ms.length := workingPairs_length O cfg ms b
      rw [hloop, hc, ih b]
      simp only [List.length_cons]
      omega
    | false =>
      obtain ⟨a, ha⟩ := analyze_move_ok_of_src_occupied O hT cfg b m hL
      have hc : (workingPairs O cfg b (m :: ms)).countP
          (fun pr => sanRaises pr.1 pr.2)
          = (workingPairs O cfg (pushMove b m) ms).countP
              (fun pr => sanRaises pr.1 pr.2) := by
        simp [workingPairs, ha, List.countP_cons, hL]
      have hloop : (analyzeLoop O cfg b (m :: ms)).1.length
          = (analyzeLoop O cfg (pushMove b m) ms).1.length + 1 := by
        cases hrec : analyzeLoop O cfg (pushMove b m) ms with
        | mk rest final => simp [analyzeLoop, ha, hrec]
      have hbound : (workingPairs O cfg (pushMove b m) ms).countP
          (fun pr => sanRaises pr.1 pr.2) ≤ ms.length := by
        calc (workingPairs O cfg (pushMove b m) ms).countP
              (fun pr => sanRaises pr.1 pr.2)
            ≤ (workingPairs O cfg (pushMove b m) ms).length := List.countP_le_length _
          _ = ms.length := workingPairs_length O cfg ms (pushMove b m)
      rw [hloop, hc, ih (pushMove b m)]
      simp only [List.length_cons]
      omega

/-- okOracle never fails. -/
theorem okOracle_total : OracleTotal okOracle :=
  ⟨fun _ => ⟨⟨some 0, none, []⟩, rfl⟩,
   fun _ _ _ h => Except.noConfusion h⟩

/-- The move e2e5, a pawn advancing three ranks: illegal in the starting
position, but its from-square is occupied. -/
def e2e5 : Move := ⟨12, 36, none⟩

set_option maxRecDepth 200000 in
/-- Claim C4, counterexample: the one-move sequence e2e5 contains exactly
one illegal move, yet analyze_game returns one MoveAnalysis entry, not
len(moves) − 1 = 0 - python-chess san/push only assert on an empty
from-square, so the illegal pawn jump from the occupied e2 is analyzed as
if legal and is not dropped. -/
theorem C4_counterexample_illegal_move_analyzed :
    isLegal startBoard e2e5 = false
    ∧ (analyze_game okOracle cfg0 none startBoard [e2e5]).1.length = 1
    ∧ (analyze_game okOracle cfg0 none startBoard [e2e5]).1.length
        ≠ [e2e5].length - 1 := by
  have h1 : (analyze_game okOracle cfg0 none startBoard [e2e5]).1.length = 1 := by
    decide
  refine ⟨by decide, h1, ?_⟩
  rw [h1]
  decide

/-- Claim C4, amended: under an engine that never fails, analyze_game is a
total function (no exception propagates) and drops exactly the moves whose
from-square is empty in the working position where they appear - the only
condition on which python-chess `board.san`/`board.push` raise; every other
move, legal or not, yields a MoveAnalysis entry.  In particular, a sequence
in which exactly one move hits an empty from-square yields
len(moves) − 1 entries. -/
theorem C4_dropped_iff_empty_source (O : Oracle) (cfg : AnalyzerConfig)
    (b : Board) (ms : List Move) (hT : OracleTotal O) :
    (analyze_game O cfg none b ms).1.length
        = ms.length - (workingPairs O cfg b ms).countP (fun pr => sanRaises pr.1 pr.2)
    ∧ ((workingPairs O cfg b ms).countP (fun pr => sanRaises pr.1 pr.2) = 1 →
        (analyze_game O cfg none b ms).1.length = ms.length - 1) := by
  have hg : (analyze_game O cfg none b ms).1.length
      = (analyzeLoop O cfg b ms).1.length := rfl
  have h := analyzeLoop_length O cfg hT ms b
  rw [hg, h]
  exact ⟨rfl, fun h1 => by rw [h1]⟩

set_option maxRecDepth 200000 in
/-- Witness for C4_dropped_iff_empty_source: in the e2e4, a7a5, a7a5 list
the third move finds a7 empty and is dropped, yielding two analyses. -/
theorem C4_dropped_iff_empty_source_witness :
    (analyze_game okOracle cfg0 none startBoard oneIllegalMoves).1.length
      = oneIllegalMoves.length - 1 :=
  (C4_dropped_iff_empty_source okOracle cfg0 startBoard oneIllegalMoves
    okOracle_total).2 (by decide)

end ChessRisk
